import Mathlib

/-!
Verification of the FreeList fixed-capacity object pool (single header
`freelist.hpp`, template class `FreeList<Type>`).

Shallow embedding conventions:
* Addresses are natural numbers (byte addresses).  The arena pointer `data`
  and the address `free_segments_addr` of the `free_segments` array are kept
  as plain numbers so that region identity (who frees what, aliasing after a
  move) is expressible.  The CONTENTS of the `free_segments` array are kept
  as a `List Nat` of addresses.
* `sizeofType` stands for `sizeof(Type)`; in C++ it is always at least 1,
  which appears as a hypothesis `0 < sz` where distinctness of slot
  addresses needs it.
* A debug-validated build is modelled: the `assert`s of `markAsFree` become
  a guard; a failed assert is `none` (execution aborts, no mutation).
* `throw std::runtime_error(...)` is modelled with `Except.error` carrying
  the thrown message; operations return the resulting state in both
  branches, so "the state is unmodified on failure" is a provable equation.
* Side effects of `Type` member functions are modelled as an event trace:
  placement-new emits `Event.construct addr`, `ptr->~Type()` emits
  `Event.destruct addr`, and a push onto the free stack emits
  `Event.push addr`, in program order.
* `operator new` is modelled as always succeeding and returning a chosen
  base address (`std::bad_alloc` handling is out of scope of the claims).
-/

/-- Observable events of the pool operations, in program order: a push of an
address onto the free stack, a placement-new construction of a `Type` at an
address, and a destructor call on the `Type` object at an address. -/
inductive Event where
  | push (addr : Nat) : Event
  | construct (addr : Nat) : Event
  | destruct (addr : Nat) : Event
deriving DecidableEq, Repr

/-- Index of the first occurrence of event `e` in a trace (length if absent). -/
def eventIdx (tr : List Event) (e : Event) : Nat :=
  tr.findIdx (fun x => x = e)

/-- State of one `FreeList<Type>` instance: direct translation of the data
members of the class in `freelist.hpp`.  `data` and `free_segments_addr` are
the values of the two pointers (region identities); `free_segments` is the
contents of the pointed-to array; `sizeofType` records `sizeof(Type)`. -/
structure FreeListState where
  free_resources_on_destr : Bool
  list_size : Nat
  index_top : Nat
  data : Nat
  free_segments_addr : Nat
  free_segments : List Nat
  sizeofType : Nat
deriving DecidableEq, Repr

/-- Translation of `FreeList::freeAll`:
`size_t index = list_size - 1;`
`for (index_top = 0; index_top < list_size; ++index_top)`
`  free_segments[index_top] = &(data[index-- * sizeof(Type)]);`
At loop iteration `j` the decrementing counter `index` holds
`list_size - 1 - j`, and the loop leaves `index_top = list_size`. -/
def freeAll (s : FreeListState) : FreeListState :=
  { s with
    index_top := s.list_size
    free_segments :=
      (List.range s.list_size).foldl
        (fun arr j => arr.set j (s.data + (s.list_size - 1 - j) * s.sizeofType))
        s.free_segments }

/-- Translation of the owning constructor `FreeList(const size_t)`: allocates
the arena at base address `d` and the segment array at `segB` (the fresh
`new char *[list_size]` array is modelled with unspecified contents
`List.replicate N 0`; `freeAll` overwrites every entry), then runs
`freeAll`. -/
def ctorOwning (sz N d segB : Nat) : FreeListState :=
  freeAll
    { free_resources_on_destr := true
      list_size := N
      index_top := 0
      data := d
      free_segments_addr := segB
      free_segments := List.replicate N 0
      sizeofType := sz }

/-- Translation of the borrowing constructor
`FreeList(Type *, Type **, const size_t)`: binds the caller-supplied arena at
`d` and the caller-supplied segment array at `segB` with current contents
`init` (leftover values are irrelevant: `freeAll` overwrites every entry),
sets `free_resources_on_destr = false`, then runs `freeAll`. -/
def ctorBorrowing (sz d : Nat) (init : List Nat) (N segB : Nat) : FreeListState :=
  freeAll
    { free_resources_on_destr := false
      list_size := N
      index_top := 0
      data := d
      free_segments_addr := segB
      free_segments := init
      sizeofType := sz }

/-- Translation of the move constructor `FreeList(FreeList &&rv)`: every data
member is copied to the new instance, and afterwards
`rv.free_resources_on_destr = false;` is the only mutation of the source.
Returns (new instance, moved-from source). -/
def moveCtor (rv : FreeListState) : FreeListState × FreeListState :=
  ({ free_resources_on_destr := rv.free_resources_on_destr
     list_size := rv.list_size
     index_top := rv.index_top
     data := rv.data
     free_segments_addr := rv.free_segments_addr
     free_segments := rv.free_segments
     sizeofType := rv.sizeofType },
   { rv with free_resources_on_destr := false })

/-- Translation of `~FreeList`: the list of region base addresses it passes
to `delete []` — the arena and the segment array when
`free_resources_on_destr` holds, nothing otherwise. -/
def destructorFrees (s : FreeListState) : List Nat :=
  if s.free_resources_on_destr then [s.data, s.free_segments_addr] else []

/-- Translation of `FreeList::getFreePlace`: if `index_top == 0` it throws
`std::runtime_error("FreeList stack overflow\n")` (state untouched),
otherwise it returns `free_segments[--index_top]`. -/
def getFreePlace (s : FreeListState) : Except String Nat × FreeListState :=
  if s.index_top = 0 then
    (.error "FreeList stack overflow\n", s)
  else
    (.ok (s.free_segments.getD (s.index_top - 1) 0),
     { s with index_top := s.index_top - 1 })

/-- Translation of `FreeList::markAsFree` in a debug-validated build: the
three `assert`s (`(char *)ptr >= data`,
`(char *)ptr <= data + (list_size - 1) * sizeof(Type)`,
`index_top < list_size`) guard the push
`free_segments[index_top++] = (char *)ptr`; a failed assert aborts before
any mutation (`none`). -/
def markAsFree (s : FreeListState) (ptr : Nat) : Option (FreeListState × List Event) :=
  if s.data ≤ ptr ∧ ptr ≤ s.data + (s.list_size - 1) * s.sizeofType ∧
      s.index_top < s.list_size then
    some ({ s with
            free_segments := s.free_segments.set s.index_top ptr
            index_top := s.index_top + 1 },
          [Event.push ptr])
  else
    none

/-- Translation of `FreeList::constructOnFreePlace`:
`return new (getFreePlace()) Type(args...);` — `getFreePlace()` is evaluated
first; if it throws, the `Type` constructor never runs (no `construct`
event); otherwise exactly one `Type` is constructed at the returned
address. -/
def constructOnFreePlace (s : FreeListState) : Except String Nat × FreeListState × List Event :=
  match getFreePlace s with
  | (.error e, s') => (.error e, s', [])
  | (.ok p, s') => (.ok p, s', [Event.construct p])

/-- Translation of `FreeList::destructAndMarkAsFree`: the function body is
`markAsFree(ptr); ptr->~Type();` in that order, so on the success path the
trace is the push event of `markAsFree` followed by the destructor event. -/
def destructAndMarkAsFree (s : FreeListState) (ptr : Nat) :
    Option (FreeListState × List Event) :=
  match markAsFree s ptr with
  | some (s', ev) => some (s', ev ++ [Event.destruct ptr])
  | none => none

/-- Translation of `FreeList::getPhysicalSize`: `list_size * sizeof(Type)`. -/
def getPhysicalSize (s : FreeListState) : Nat :=
  s.list_size * s.sizeofType

/-- Translation of the static `FreeList::calculatePhysicalSize`:
`size * sizeof(Type)`. -/
def calculatePhysicalSize (sz size : Nat) : Nat :=
  size * sz

/-- Byte address of slot `i` of an arena based at `d` with slot size `sz`. -/
def slotAddr (d sz i : Nat) : Nat :=
  d + i * sz

/-- The currently-free entries of the stack: `free_segments[0 .. index_top)`. -/
def freeEntries (s : FreeListState) : List Nat :=
  s.free_segments.take s.index_top

/-- The segment-array contents produced by `freeAll` on an array of length
`list_size`: entry `j` holds the address of slot `list_size - 1 - j`. -/
def freshSegments (d sz N : Nat) : List Nat :=
  (List.range N).map (fun j => d + (N - 1 - j) * sz)

/-- Running `n` consecutive `getFreePlace` calls, collecting the returned
addresses; the first thrown exception propagates with the state at the
throw. -/
def acquireN : Nat → FreeListState → Except String (List Nat) × FreeListState
  | 0, s => (.ok [], s)
  | n + 1, s =>
    match getFreePlace s with
    | (.error e, s') => (.error e, s')
    | (.ok p, s') =>
      match acquireN n s' with
      | (.error e, s'') => (.error e, s'')
      | (.ok ps, s'') => (.ok (p :: ps), s'')

example : ctorOwning 4 2 100 1000 =
    ⟨true, 2, 2, 100, 1000, [104, 100], 4⟩ := by decide

example : (acquireN 2 (ctorOwning 4 2 100 1000)).1 = .ok [100, 104] := by rfl

example : (acquireN 3 (ctorOwning 4 2 100 1000)).1 =
    .error "FreeList stack overflow\n" := by rfl

lemma foldl_set_range (g : Nat → Nat) :
    ∀ (k : Nat) (l : List Nat), k ≤ l.length →
      (List.range k).foldl (fun arr j => arr.set j (g j)) l
        = (List.range k).map g ++ l.drop k := by
  intro k
  induction k with
  | zero => intro l _; simp
  | succ k ih =>
    intro l hk
    have hk' : k < l.length := hk
    rw [List.range_succ, List.foldl_append, ih l (Nat.le_of_lt hk')]
    simp only [List.foldl_cons, List.foldl_nil]
    rw [List.set_append]
    have hlen : ((List.range k).map g).length = k := by simp
    rw [hlen, if_neg (lt_irrefl k), Nat.sub_self,
        List.drop_eq_getElem_cons hk', List.set_cons_zero]
    simp [List.range_succ]

lemma ctorOwning_free_segments (sz N d segB : Nat) :
    (ctorOwning sz N d segB).free_segments = freshSegments d sz N := by
  show (List.range N).foldl
      (fun arr j => arr.set j (d + (N - 1 - j) * sz)) (List.replicate N 0)
    = freshSegments d sz N
  rw [foldl_set_range (fun j => d + (N - 1 - j) * sz) N (List.replicate N 0)
      (by simp)]
  simp [freshSegments]

lemma ctorBorrowing_free_segments (sz d : Nat) (init : List Nat) (N segB : Nat)
    (hlen : init.length = N) :
    (ctorBorrowing sz d init N segB).free_segments = freshSegments d sz N := by
  show (List.range N).foldl
      (fun arr j => arr.set j (d + (N - 1 - j) * sz)) init
    = freshSegments d sz N
  rw [foldl_set_range (fun j => d + (N - 1 - j) * sz) N init (le_of_eq hlen.symm)]
  simp [freshSegments, hlen]

lemma freshSegments_getD (d sz N i : Nat) (h : i < N) :
    (freshSegments d sz N).getD i 0 = d + (N - 1 - i) * sz := by
  rw [freshSegments, List.getD_eq_getElem?_getD, List.getElem?_map,
      List.getElem?_range h]
  rfl

lemma acquireN_succ_error (n : Nat) (s s' : FreeListState) (e : String)
    (h : getFreePlace s = (.error e, s')) :
    acquireN (n + 1) s = (.error e, s') := by
  show (match getFreePlace s with
        | (.error e, s') => ((.error e : Except String (List Nat)), s')
        | (.ok p, s') =>
          match acquireN n s' with
          | (.error e, s'') => (.error e, s'')
          | (.ok ps, s'') => (.ok (p :: ps), s'')) = (.error e, s')
  rw [h]

lemma acquireN_succ_ok (n : Nat) (s s' : FreeListState) (p : Nat)
    (h : getFreePlace s = (.ok p, s')) :
    acquireN (n + 1) s =
      (match acquireN n s' with
       | (.error e, s'') => (.error e, s'')
       | (.ok ps, s'') => (.ok (p :: ps), s'')) := by
  show (match getFreePlace s with
        | (.error e, s') => ((.error e : Except String (List Nat)), s')
        | (.ok p, s') =>
          match acquireN n s' with
          | (.error e, s'') => (.error e, s'')
          | (.ok ps, s'') => (.ok (p :: ps), s'')) = _
  rw [h]

lemma acquireN_fresh (d sz N : Nat) :
    ∀ (m : Nat) (s : FreeListState), m ≤ N →
      s.free_segments = freshSegments d sz N → s.index_top = m →
      acquireN m s =
        (.ok ((List.range m).map (fun i => slotAddr d sz (N - m + i))),
         { s with index_top := 0 }) := by
  intro m
  induction m with
  | zero =>
    intro s _ _ htop
    obtain ⟨a, b, c, d', e, f, g⟩ := s
    simp only at htop
    subst htop
    rfl
  | succ m ih =>
    intro s hm hseg htop
    have hm' : m < N := Nat.lt_of_lt_of_le (Nat.lt_succ_self m) hm
    have hne : ¬ s.index_top = 0 := by omega
    have step : getFreePlace s =
        (.ok (slotAddr d sz (N - 1 - m)), { s with index_top := m }) := by
      rw [getFreePlace, if_neg hne, hseg, htop]
      have h1 : m + 1 - 1 = m := rfl
      rw [h1, freshSegments_getD d sz N m hm']
      rfl
    have rest := ih { s with index_top := m } (Nat.le_of_lt hm') hseg rfl
    rw [acquireN_succ_ok m s { s with index_top := m } (slotAddr d sz (N - 1 - m))
        step, rest]
    show (Except.ok (slotAddr d sz (N - 1 - m) ::
            (List.range m).map (fun i => slotAddr d sz (N - m + i))),
          ({ s with index_top := 0 } : FreeListState)) = _
    have hlist : slotAddr d sz (N - 1 - m) ::
          (List.range m).map (fun i => slotAddr d sz (N - m + i))
        = (List.range (m + 1)).map (fun i => slotAddr d sz (N - (m + 1) + i)) := by
      rw [List.range_succ_eq_map, List.map_cons, List.map_map]
      have h1 : slotAddr d sz (N - (m + 1) + 0) = slotAddr d sz (N - 1 - m) := by
        congr 1
        omega
      have h2 : ((fun i => slotAddr d sz (N - (m + 1) + i)) ∘ Nat.succ)
          = fun i => slotAddr d sz (N - m + i) := by
        funext i
        simp only [Function.comp]
        congr 1
        omega
      rw [h1, h2]
    rw [hlist]

lemma acquireN_fresh_exhaust (d sz N : Nat) :
    ∀ (m : Nat) (s : FreeListState), m ≤ N →
      s.free_segments = freshSegments d sz N → s.index_top = m →
      acquireN (m + 1) s =
        (.error "FreeList stack overflow\n", { s with index_top := 0 }) := by
  intro m
  induction m with
  | zero =>
    intro s _ _ htop
    obtain ⟨a, b, c, d', e, f, g⟩ := s
    simp only at htop
    subst htop
    rfl
  | succ m ih =>
    intro s hm hseg htop
    have hm' : m < N := Nat.lt_of_lt_of_le (Nat.lt_succ_self m) hm
    have hne : ¬ s.index_top = 0 := by omega
    have step : getFreePlace s =
        (.ok (slotAddr d sz (N - 1 - m)), { s with index_top := m }) := by
      rw [getFreePlace, if_neg hne, hseg, htop]
      have h1 : m + 1 - 1 = m := rfl
      rw [h1, freshSegments_getD d sz N m hm']
      rfl
    have rest := ih { s with index_top := m } (Nat.le_of_lt hm') hseg rfl
    rw [acquireN_succ_ok (m + 1) s { s with index_top := m }
        (slotAddr d sz (N - 1 - m)) step, rest]

lemma acquireN_preserves (n : Nat) :
    ∀ s : FreeListState,
      (acquireN n s).2.free_segments = s.free_segments ∧
      (acquireN n s).2.list_size = s.list_size := by
  induction n with
  | zero => intro s; exact ⟨rfl, rfl⟩
  | succ n ih =>
    intro s
    by_cases h : s.index_top = 0
    · have hg : getFreePlace s = (.error "FreeList stack overflow\n", s) := by
        rw [getFreePlace, if_pos h]
      rw [acquireN_succ_error n s s "FreeList stack overflow\n" hg]
      exact ⟨rfl, rfl⟩
    · have hg : getFreePlace s =
          (.ok (s.free_segments.getD (s.index_top - 1) 0),
           { s with index_top := s.index_top - 1 }) := by
        rw [getFreePlace, if_neg h]
      rw [acquireN_succ_ok n s { s with index_top := s.index_top - 1 }
          (s.free_segments.getD (s.index_top - 1) 0) hg]
      have ihs := ih { s with index_top := s.index_top - 1 }
      rcases hres : acquireN n { s with index_top := s.index_top - 1 } with ⟨res, s''⟩
      rw [hres] at ihs
      cases res with
      | error e => exact ihs
      | ok ps => exact ihs

/-- C3: for every freshly constructed pool (Owning or Borrowing) of capacity
`N`, the first `N` acquire calls with no intervening release return the slot
addresses in ascending slot-index order: slot 0 first, then slot 1, and so
on up to slot `N - 1`. -/
theorem freelist_cold_fill_order (sz N d segB : Nat) (init : List Nat)
    (hlen : init.length = N) :
    (acquireN N (ctorOwning sz N d segB)).1
        = .ok ((List.range N).map (slotAddr d sz))
    ∧ (acquireN N (ctorBorrowing sz d init N segB)).1
        = .ok ((List.range N).map (slotAddr d sz)) := by
  constructor
  · rw [acquireN_fresh d sz N N (ctorOwning sz N d segB) (le_refl N)
        (ctorOwning_free_segments sz N d segB) rfl]
    simp [Nat.sub_self]
  · rw [acquireN_fresh d sz N N (ctorBorrowing sz d init N segB) (le_refl N)
        (ctorBorrowing_free_segments sz d init N segB hlen) rfl]
    simp [Nat.sub_self]

/-- Witness for C3: capacity 2, slot size 4, arena at 100; the two acquires
return slot 0 (address 100) then slot 1 (address 104), for an owning pool
and for a borrowing pool over a caller array with leftover contents. -/
theorem freelist_cold_fill_order_witness :
    ([7, 7] : List Nat).length = 2
    ∧ ((acquireN 2 (ctorOwning 4 2 100 1000)).1
        = .ok ((List.range 2).map (slotAddr 100 4))
      ∧ (acquireN 2 (ctorBorrowing 4 100 [7, 7] 2 1000)).1
        = .ok ((List.range 2).map (slotAddr 100 4))) :=
  ⟨by decide, freelist_cold_fill_order 4 2 100 1000 [7, 7] (by decide)⟩

/-- C4: for every pool of capacity `N`, exactly `N` consecutive acquire
calls with no intervening release succeed and return pairwise-distinct
addresses, each one of the `N` fixed slot addresses inside the arena; the
call number `N + 1` fails with the thrown runtime error. -/
theorem freelist_capacity_bound (sz N d segB : Nat) (hsz : 0 < sz) :
    (acquireN N (ctorOwning sz N d segB)).1
        = .ok ((List.range N).map (slotAddr d sz))
    ∧ ((List.range N).map (slotAddr d sz)).Nodup
    ∧ (∀ a ∈ (List.range N).map (slotAddr d sz), ∃ i, i < N ∧ a = slotAddr d sz i)
    ∧ (acquireN (N + 1) (ctorOwning sz N d segB)).1
        = .error "FreeList stack overflow\n" := by
  refine ⟨?_, ?_, ?_, ?_⟩
  · rw [acquireN_fresh d sz N N (ctorOwning sz N d segB) (le_refl N)
        (ctorOwning_free_segments sz N d segB) rfl]
    simp [Nat.sub_self]
  · refine List.Nodup.map ?_ (List.nodup_range N)
    intro i j hij
    simp only [slotAddr] at hij
    have := Nat.add_left_cancel hij
    exact Nat.eq_of_mul_eq_mul_right hsz this
  · intro a ha
    simp only [List.mem_map, List.mem_range] at ha
    obtain ⟨i, hi, rfl⟩ := ha
    exact ⟨i, hi, rfl⟩
  · rw [acquireN_fresh_exhaust d sz N N (ctorOwning sz N d segB) (le_refl N)
        (ctorOwning_free_segments sz N d segB) rfl]

/-- Witness for C4: slot size 4 is positive; with capacity 2, arena at 100,
both conclusions evaluate on the concrete pool. -/
theorem freelist_capacity_bound_witness :
    0 < 4
    ∧ ((acquireN 2 (ctorOwning 4 2 100 1000)).1
        = .ok ((List.range 2).map (slotAddr 100 4))
      ∧ ((List.range 2).map (slotAddr 100 4)).Nodup
      ∧ (∀ a ∈ (List.range 2).map (slotAddr 100 4),
            ∃ i, i < 2 ∧ a = slotAddr 100 4 i)
      ∧ (acquireN (2 + 1) (ctorOwning 4 2 100 1000)).1
        = .error "FreeList stack overflow\n") :=
  ⟨by decide, freelist_capacity_bound 4 2 100 1000 (by decide)⟩

/-- C6: the free stack is strictly LIFO: if acquires return `a`, `b`, `c`
in that order and then `b` is released with `markAsFree`, the immediately
following acquire returns exactly the address `b`. -/
theorem freelist_lifo_reuse (s s3 s4 : FreeListState) (a b c : Nat)
    (ev : List Event)
    (hwf : s.free_segments.length = s.list_size)
    (hacq : acquireN 3 s = (.ok [a, b, c], s3))
    (hrel : markAsFree s3 b = some (s4, ev)) :
    (getFreePlace s4).1 = .ok b := by
  have hpres := acquireN_preserves 3 s
  rw [hacq] at hpres
  have hlen : s3.free_segments.length = s3.list_size := by
    rw [hpres.1, hwf, hpres.2]
  rw [markAsFree] at hrel
  split at hrel
  case isFalse => exact absurd hrel (by simp)
  case isTrue hcond =>
    have htop : s3.index_top < s3.list_size := hcond.2.2
    simp only [Option.some.injEq, Prod.mk.injEq] at hrel
    obtain ⟨hs4, hev⟩ := hrel
    rw [← hs4]
    have hne : ¬ (s3.index_top + 1 = 0) := Nat.succ_ne_zero _
    show (getFreePlace
        { s3 with free_segments := s3.free_segments.set s3.index_top b
                  index_top := s3.index_top + 1 }).1 = .ok b
    rw [getFreePlace]
    rw [if_neg hne]
    simp only [Nat.add_sub_cancel]
    rw [List.getD_eq_getElem?_getD,
        List.getElem?_set_self (by omega)]
    rfl

/-- Witness for C6: capacity 3 owning pool at arena 100; the three acquires
return 100, 104, 108; releasing 104 makes the next acquire return 104. -/
theorem freelist_lifo_reuse_witness :
    (ctorOwning 4 3 100 1000).free_segments.length
        = (ctorOwning 4 3 100 1000).list_size
    ∧ acquireN 3 (ctorOwning 4 3 100 1000)
        = (.ok [100, 104, 108], ⟨true, 3, 0, 100, 1000, [108, 104, 100], 4⟩)
    ∧ markAsFree ⟨true, 3, 0, 100, 1000, [108, 104, 100], 4⟩ 104
        = some (⟨true, 3, 1, 100, 1000, [104, 104, 100], 4⟩, [Event.push 104])
    ∧ (getFreePlace ⟨true, 3, 1, 100, 1000, [104, 104, 100], 4⟩).1 = .ok 104 :=
  ⟨rfl, rfl, rfl,
   freelist_lifo_reuse (ctorOwning 4 3 100 1000)
     ⟨true, 3, 0, 100, 1000, [108, 104, 100], 4⟩
     ⟨true, 3, 1, 100, 1000, [104, 104, 100], 4⟩
     100 104 108 [Event.push 104] rfl rfl rfl⟩

/-- C7: for every pool whose free count is zero, `getFreePlace` fails with
the thrown runtime error and leaves the free stack (contents and cursor)
unmodified, and `constructOnFreePlace` on such a pool fails the same way
without running the `Type` constructor (empty event trace) or changing any
pool state; on success paths `constructOnFreePlace` constructs exactly one
`Type` at the acquired address. -/
theorem freelist_exhausted_behavior (s t : FreeListState) (p : Nat)
    (h0 : s.index_top = 0) (hok : (getFreePlace t).1 = .ok p) :
    getFreePlace s = (.error "FreeList stack overflow\n", s)
    ∧ constructOnFreePlace s = (.error "FreeList stack overflow\n", s, [])
    ∧ constructOnFreePlace t = (.ok p, (getFreePlace t).2, [Event.construct p]) := by
  have h1 : getFreePlace s = (.error "FreeList stack overflow\n", s) := by
    rw [getFreePlace, if_pos h0]
  refine ⟨h1, ?_, ?_⟩
  · show (match getFreePlace s with
          | (.error e, s') => ((.error e : Except String Nat), s', ([] : List Event))
          | (.ok p, s') => (.ok p, s', [Event.construct p])) = _
    rw [h1]
  · rcases hgt : getFreePlace t with ⟨r, t'⟩
    rw [hgt] at hok
    simp only at hok
    subst hok
    show (match getFreePlace t with
          | (.error e, s') => ((.error e : Except String Nat), s', ([] : List Event))
          | (.ok p, s') => (.ok p, s', [Event.construct p])) = _
    rw [hgt]

/-- Witness for C7: the capacity-0 pool is exhausted from the start; the
capacity-1 pool at arena 200 has a successful acquire returning 200. -/
theorem freelist_exhausted_behavior_witness :
    (ctorOwning 4 0 100 1000).index_top = 0
    ∧ (getFreePlace (ctorOwning 4 1 200 2000)).1 = .ok 200
    ∧ (getFreePlace (ctorOwning 4 0 100 1000)
        = (.error "FreeList stack overflow\n", ctorOwning 4 0 100 1000)
      ∧ constructOnFreePlace (ctorOwning 4 0 100 1000)
        = (.error "FreeList stack overflow\n", ctorOwning 4 0 100 1000, [])
      ∧ constructOnFreePlace (ctorOwning 4 1 200 2000)
        = (.ok 200, (getFreePlace (ctorOwning 4 1 200 2000)).2,
           [Event.construct 200])) :=
  ⟨rfl, rfl,
   freelist_exhausted_behavior (ctorOwning 4 0 100 1000)
     (ctorOwning 4 1 200 2000) 200 rfl rfl⟩

/-- C8: move-constructing a second pool from a first pool yields a new
instance with the same capacity, cursor, free-stack contents, arena base
and segment-array address; destroying the moved-from first pool afterwards
deallocates nothing. -/
theorem freelist_move_transparency (s : FreeListState) :
    (moveCtor s).1.list_size = s.list_size
    ∧ (moveCtor s).1.index_top = s.index_top
    ∧ (moveCtor s).1.free_segments = s.free_segments
    ∧ (moveCtor s).1.data = s.data
    ∧ (moveCtor s).1.free_segments_addr = s.free_segments_addr
    ∧ (moveCtor s).1.free_resources_on_destr = s.free_resources_on_destr
    ∧ destructorFrees (moveCtor s).2 = [] :=
  ⟨rfl, rfl, rfl, rfl, rfl, rfl, rfl⟩

/-- C9: a Borrowing pool never deallocates the caller-supplied arena or
segment array on destruction, and constructing a new Borrowing pool over
the same buffers afterwards (with whatever leftover contents `init` of
length `N` the segment array holds) yields a pool with all `N` slots free:
the cursor is `N`, the stack is freshly populated, and `N` acquires
succeed. -/
theorem freelist_borrowing_non_ownership (sz d : Nat) (init : List Nat)
    (N segB : Nat) (hlen : init.length = N) :
    destructorFrees (ctorBorrowing sz d init N segB) = []
    ∧ (ctorBorrowing sz d init N segB).free_resources_on_destr = false
    ∧ (ctorBorrowing sz d init N segB).index_top = N
    ∧ (ctorBorrowing sz d init N segB).free_segments = freshSegments d sz N
    ∧ (acquireN N (ctorBorrowing sz d init N segB)).1
        = .ok ((List.range N).map (slotAddr d sz)) := by
  refine ⟨rfl, rfl, rfl, ctorBorrowing_free_segments sz d init N segB hlen, ?_⟩
  rw [acquireN_fresh d sz N N (ctorBorrowing sz d init N segB) (le_refl N)
      (ctorBorrowing_free_segments sz d init N segB hlen) rfl]
  simp [Nat.sub_self]

/-- Witness for C9: a borrowing pool of capacity 2 over a caller array with
leftover contents `[7, 7]`. -/
theorem freelist_borrowing_non_ownership_witness :
    ([7, 7] : List Nat).length = 2
    ∧ (destructorFrees (ctorBorrowing 4 100 [7, 7] 2 1000) = []
      ∧ (ctorBorrowing 4 100 [7, 7] 2 1000).free_resources_on_destr = false
      ∧ (ctorBorrowing 4 100 [7, 7] 2 1000).index_top = 2
      ∧ (ctorBorrowing 4 100 [7, 7] 2 1000).free_segments = freshSegments 100 4 2
      ∧ (acquireN 2 (ctorBorrowing 4 100 [7, 7] 2 1000)).1
          = .ok ((List.range 2).map (slotAddr 100 4))) :=
  ⟨by decide, freelist_borrowing_non_ownership 4 100 [7, 7] 2 1000 (by decide)⟩

/-- C10: constructing an owning pool with capacity 0 succeeds (the
initialization loop of `freeAll` performs zero iterations, leaving the
cursor at 0 and the segment array untouched), `getPhysicalSize` returns 0,
and on such a pool every acquire and every `constructOnFreePlace` call
fails with the thrown runtime error without constructing anything and
without changing the state. -/
theorem freelist_zero_capacity (sz d segB n : Nat) :
    (ctorOwning sz 0 d segB).index_top = 0
    ∧ (ctorOwning sz 0 d segB).free_segments = []
    ∧ getPhysicalSize (ctorOwning sz 0 d segB) = 0
    ∧ acquireN (n + 1) (ctorOwning sz 0 d segB)
        = (.error "FreeList stack overflow\n", ctorOwning sz 0 d segB)
    ∧ constructOnFreePlace (ctorOwning sz 0 d segB)
        = (.error "FreeList stack overflow\n", ctorOwning sz 0 d segB, []) := by
  have hg : getFreePlace (ctorOwning sz 0 d segB)
      = (.error "FreeList stack overflow\n", ctorOwning sz 0 d segB) := by
    rw [getFreePlace,
        if_pos (show (ctorOwning sz 0 d segB).index_top = 0 from rfl)]
  refine ⟨rfl, rfl, ?_, ?_, ?_⟩
  · show 0 * sz = 0
    exact Nat.zero_mul sz
  · exact acquireN_succ_error n _ _ _ hg
  · show (match getFreePlace (ctorOwning sz 0 d segB) with
          | (.error e, s') => ((.error e : Except String Nat), s', ([] : List Event))
          | (.ok p, s') => (.ok p, s', [Event.construct p])) = _
    rw [hg]

/-- C1 (refuting evidence): the claim and the doc comment of
`destructAndMarkAsFree` in the source say the destructor of `Type` runs
first and the release comes afterwards, but the function body is
`markAsFree(ptr); ptr->~Type();`.  On the concrete capacity-1 pool at arena
100 with a live object at address 100 (constructed by
`constructOnFreePlace`), the trace of `destructAndMarkAsFree` is the push
of 100 followed by the destructor call on 100: the push strictly precedes
the destructor call. -/
theorem freelist_destruct_runs_after_push :
    constructOnFreePlace (ctorOwning 4 1 100 1000)
      = (.ok 100, ⟨true, 1, 0, 100, 1000, [100], 4⟩, [Event.construct 100])
    ∧ destructAndMarkAsFree ⟨true, 1, 0, 100, 1000, [100], 4⟩ 100
      = some (⟨true, 1, 1, 100, 1000, [100], 4⟩,
              [Event.push 100, Event.destruct 100])
    ∧ eventIdx [Event.push 100, Event.destruct 100] (Event.push 100)
        < eventIdx [Event.push 100, Event.destruct 100] (Event.destruct 100) :=
  ⟨rfl, rfl, by decide⟩

/-- C2 counterexample: on a capacity-2 pool at arena 100 (slot size 4) with
both slots acquired, releasing slot 0 (address 100) and then releasing 100
a second time passes all three debug assertions: the double release is NOT
detected even though 100 is already among the currently-free entries, and
the duplicate is pushed.  Likewise the misaligned in-range address 101,
which is no slot address, passes the assertions and is pushed.  The first
two conjuncts show the violating states are reached from a fresh pool. -/
theorem freelist_double_release_not_detected :
    getFreePlace (ctorOwning 4 2 100 1000)
      = (.ok 100, ⟨true, 2, 1, 100, 1000, [104, 100], 4⟩)
    ∧ getFreePlace ⟨true, 2, 1, 100, 1000, [104, 100], 4⟩
      = (.ok 104, ⟨true, 2, 0, 100, 1000, [104, 100], 4⟩)
    ∧ markAsFree ⟨true, 2, 0, 100, 1000, [104, 100], 4⟩ 100
      = some (⟨true, 2, 1, 100, 1000, [100, 100], 4⟩, [Event.push 100])
    ∧ 100 ∈ freeEntries ⟨true, 2, 1, 100, 1000, [100, 100], 4⟩
    ∧ markAsFree ⟨true, 2, 1, 100, 1000, [100, 100], 4⟩ 100
      = some (⟨true, 2, 2, 100, 1000, [100, 100], 4⟩, [Event.push 100])
    ∧ markAsFree ⟨true, 2, 0, 100, 1000, [104, 100], 4⟩ 101
      = some (⟨true, 2, 1, 100, 1000, [101, 100], 4⟩, [Event.push 101])
    ∧ slotAddr 100 4 0 ≠ 101 ∧ slotAddr 100 4 1 ≠ 101 := by
  refine ⟨rfl, rfl, rfl, ?_, rfl, rfl, ?_, ?_⟩ <;> decide

/-- C2 amended: in a debug-validated build `markAsFree` checks, before
mutating the free stack, exactly that `ptr` lies in the byte range from
`data` to `data + (list_size - 1) * sizeof(Type)` and that the free stack
is not already full (`index_top < list_size`); a call violating one of
these checks is detected (an assertion fails, nothing is pushed).  Slot
alignment inside the range and absence of `ptr` from the currently-free
entries are NOT checked, so an in-range double release with a non-full
stack is pushed silently. -/
theorem freelist_markAsFree_checked_conditions (s : FreeListState) (ptr : Nat) :
    markAsFree s ptr = none ↔
      ¬ (s.data ≤ ptr ∧ ptr ≤ s.data + (s.list_size - 1) * s.sizeofType
         ∧ s.index_top < s.list_size) := by
  rw [markAsFree]
  split
  case isTrue h => simp [h]
  case isFalse h => simp [h]

/-- C5 counterexample: move-construct from the reachable state with one of
two slots outstanding (arena base 100, segment array at 1000).  The
moved-from source keeps arena base 100 and segment-array address 1000 —
the very regions transferred to the new instance — so the two live
instances share both regions; moreover `getFreePlace` on the moved-from
source succeeds, reading the transferred free stack and returning arena
address 104 (slot 1 of the arena now owned by the new instance), and
`markAsFree` on the moved-from source succeeds as well, writing into the
shared segment array.  This refutes the claim that no operation on the
moved-from instance can observe or mutate the transferred regions and that
the regions are never shared. -/
theorem freelist_moved_from_source_not_inert :
    getFreePlace (ctorOwning 4 2 100 1000)
      = (.ok 100, ⟨true, 2, 1, 100, 1000, [104, 100], 4⟩)
    ∧ moveCtor ⟨true, 2, 1, 100, 1000, [104, 100], 4⟩
      = (⟨true, 2, 1, 100, 1000, [104, 100], 4⟩,
         ⟨false, 2, 1, 100, 1000, [104, 100], 4⟩)
    ∧ (⟨false, 2, 1, 100, 1000, [104, 100], 4⟩ : FreeListState).data
        = (⟨true, 2, 1, 100, 1000, [104, 100], 4⟩ : FreeListState).data
    ∧ (⟨false, 2, 1, 100, 1000, [104, 100], 4⟩ : FreeListState).free_segments_addr
        = (⟨true, 2, 1, 100, 1000, [104, 100], 4⟩ : FreeListState).free_segments_addr
    ∧ (getFreePlace ⟨false, 2, 1, 100, 1000, [104, 100], 4⟩).1
        = .ok (slotAddr 100 4 1)
    ∧ markAsFree ⟨false, 2, 1, 100, 1000, [104, 100], 4⟩ 104
      = some (⟨false, 2, 2, 100, 1000, [104, 104], 4⟩, [Event.push 104]) :=
  ⟨rfl, rfl, rfl, rfl, by simp [getFreePlace, slotAddr], rfl⟩

/-- C5 amended: ownership in the sense of deallocation responsibility is
exclusive and moves wholesale: after move-construction the moved-from
source has `free_resources_on_destr = false` and its destructor
deallocates nothing.  The source is not otherwise neutralized: it retains
the same arena base, segment-array address, cursor and stack contents as
the new instance, so the regions are shared by the two instances and
exclusive use is an obligation on the caller, not enforced by the code. -/
theorem freelist_move_deallocation_exclusive (s : FreeListState) :
    (moveCtor s).2.free_resources_on_destr = false
    ∧ destructorFrees (moveCtor s).2 = []
    ∧ (moveCtor s).2.data = (moveCtor s).1.data
    ∧ (moveCtor s).2.free_segments_addr = (moveCtor s).1.free_segments_addr
    ∧ (moveCtor s).2.index_top = (moveCtor s).1.index_top
    ∧ (moveCtor s).2.free_segments = (moveCtor s).1.free_segments :=
  ⟨rfl, rfl, rfl, rfl, rfl, rfl⟩
